import Mathlib

/-!
Shallow embedding of the jobs ingest/remind pipeline
(src/main.py, src/reliefweb.py, src/utils.py).

Conventions of the embedding:
* Nullable text columns and feed fields are `Option String`; a Python
  `entry.get(key)` that misses yields `none`.
* Timestamps are abstracted as `Nat` (`datetime.now()` becomes an explicit
  `now` parameter threaded to the extraction point).
* The database is an explicit state (`DB`): a list of `jobs` rows, a list of
  `reminders` rows (one `job_id` per reminder row), and the next value of the
  `id` serial.  SQL statements are translated to functions on `DB`.
* The PostgreSQL semantics of `ON CONFLICT (link) DO NOTHING` under the
  default `NULLS DISTINCT` unique index is kept: a NULL link never conflicts
  with anything, a non-NULL link conflicts with an equal stored link
  (including rows inserted earlier in the same statement).
* `requests.post` is modelled by recording a `Notification` value; the list of
  notifications returned by an operation is the list of outbound POST attempts
  it performed, in order.  A transport failure is a `transportOk := false`
  parameter: the POST is still attempted (counted) but raises.
* Exceptions are `Except Unit` results; Python truthiness of an optional list
  (`if new_job_ids:`) is translated exactly (both `None` and `[]` are falsy).
-/

namespace JobsPipeline

/-- One entry of the parsed RSS feed; each field is what `entry.get` returns,
`none` when the key is absent. -/
structure FeedEntry where
  title : Option String
  link : Option String
  published : Option String
  updated : Option String
  author : Option String
deriving Repr, DecidableEq

/-- The job dictionary built by `extract_jobs` in reliefweb.py. -/
structure JobRecord where
  title : Option String
  link : Option String
  published : Option String
  updated : Option String
  author : Option String
  fetched_at : Nat
  category : String
deriving Repr, DecidableEq

/-- reliefweb.py line 26: the module-level feed URL. -/
def rss_feedlink : String :=
  "https://reliefweb.int/jobs/rss.xml?advanced-search=%28CC6866%29_%28C131%29"

/-- reliefweb.py lines 8-24, `extract_jobs(rss_feed_link)`.
`feeds` is the external world: it maps a feed location to the entries
`feedparser.parse` finds there.  Note the source body calls
`feedparser.parse(rss_feedlink)` — the module-level global of line 26 —
and never reads its own parameter `rss_feed_link`; the embedding keeps
that behaviour. -/
def extract_jobs (feeds : String → List FeedEntry) (now : Nat)
    ( rss_feed_link : String) : List JobRecord :=
  (feeds rss_feedlink).map fun entry =>
    { title := entry.title
      link := entry.link
      published := entry.published
      updated := entry.updated
      author := entry.author
      fetched_at := now
      category := "Information and Communications Technology" }

/-- A row of the `jobs` table: the six inserted columns plus the serial `id`
and the `application_status` column (DEFAULT 'pending' per the schema in the
spec, section 6). -/
structure StoredJob where
  id : Nat
  title : Option String
  link : Option String
  published : Option String
  author : Option String
  category : Option String
  fetched_at : Option Nat
  application_status : String
deriving Repr, DecidableEq

/-- Database state: `jobs` rows, `reminders` rows (the `job_id` column of each
row), and the next serial id. -/
structure DB where
  jobs : List StoredJob
  reminders : List Nat
  next_id : Nat
deriving Repr, DecidableEq

/-- Well-formedness of the store: serial ids of existing rows are below the
next serial value and no two rows share an id (both guaranteed by a serial
primary key). -/
def DB.wf (db : DB) : Prop :=
  (∀ j ∈ db.jobs, j.id < db.next_id) ∧ (db.jobs.map fun j => j.id).Nodup

instance (db : DB) : Decidable db.wf := by
  unfold DB.wf; infer_instance

/-- The value tuple utils.py lines 194-204 builds from one job dict:
`(job.get("title"), job.get("link"), job.get("published"), job.get("author"),
job.get("category"), job.get("fetched_at"))`.  All six keys are present in the
dicts produced by `extract_jobs`, so `get` returns their values. -/
structure JobValues where
  title : Option String
  link : Option String
  published : Option String
  author : Option String
  category : Option String
  fetched_at : Option Nat
deriving Repr, DecidableEq

def job_values (job : JobRecord) : JobValues :=
  { title := job.title
    link := job.link
    published := job.published
    author := job.author
    category := some job.category
    fetched_at := some job.fetched_at }

/-- Whether inserting a row with link `l` conflicts with the unique index on
`jobs.link`.  SQL unique indexes treat NULLs as distinct, so a NULL link never
conflicts. -/
def hasLink (jobs : List StoredJob) (l : Option String) : Bool :=
  match l with
  | none => false
  | some s => jobs.any fun j => j.link == some s

/-- The row created for a non-conflicting VALUES tuple: the next serial id,
the six supplied columns, and the schema default `application_status =
pending`. -/
def freshRow (db : DB) (v : JobValues) : StoredJob :=
  { id := db.next_id
    title := v.title
    link := v.link
    published := v.published
    author := v.author
    category := v.category
    fetched_at := v.fetched_at
    application_status := "pending" }

/-- The store after appending one fresh row. -/
def afterInsert (db : DB) (v : JobValues) : DB :=
  { jobs := db.jobs ++ [freshRow db v]
    reminders := db.reminders
    next_id := db.next_id + 1 }

/-- Insert one VALUES tuple under `ON CONFLICT (link) DO NOTHING RETURNING id`:
on conflict the row is skipped and contributes no id; otherwise a fresh row is
appended and its id is returned. -/
def insertOne (db : DB) (v : JobValues) : DB × Option Nat :=
  if hasLink db.jobs v.link then (db, none)
  else (afterInsert db v, some db.next_id)

/-- utils.py line 208, `execute_values(cur, insert_query, values, fetch=True)`:
the bulk `INSERT INTO jobs ... ON CONFLICT (link) DO NOTHING RETURNING id`.
Rows are inserted in order; the returned list is the ids of the rows actually
created (conflicting rows return nothing). -/
def execute_values (db : DB) (values : List JobValues) : DB × List Nat :=
  match values with
  | [] => (db, [])
  | v :: rest =>
    let step := insertOne db v
    let tail := execute_values step.1 rest
    (tail.1, step.2.toList ++ tail.2)

/-- One outbound `requests.post` to the ntfy topic (utils.py lines 121-130):
the notification title header and the job rows whose formatted blocks make up
the body. -/
structure Notification where
  title : String
  rows : List StoredJob
deriving Repr, DecidableEq

/-- The formatted block for one job (utils.py lines 111-116). -/
def formatJob (j : StoredJob) : String :=
  "Title: " ++ toString (repr j.title) ++ "\n" ++
  "Link: " ++ toString (repr j.link) ++ "\n" ++
  "Published: " ++ toString (repr j.published) ++ "\n" ++
  "Author: " ++ toString (repr j.author) ++ "\n" ++
  "Category: " ++ toString (repr j.category) ++ "\n" ++
  "Fetched At: " ++ toString (repr j.fetched_at)

/-- The message body: blocks joined with a blank line (utils.py line 110). -/
def Notification.body (n : Notification) : String :=
  String.intercalate "\n\n" (n.rows.map formatJob)

/-- The override query of utils.py lines 94-99:
`SELECT ... FROM jobs WHERE id = ANY(new_job_ids) AND
application_status = 'pending'`. -/
def pending_by_ids (db : DB) (ids : List Nat) : List StoredJob :=
  db.jobs.filter fun j => ids.contains j.id && j.application_status == "pending"

/-- The rows `notify_jobs` fetches (utils.py lines 92-103).  Python truthiness
of `if new_job_ids:` is kept exactly: both `None` and the empty list fall
through to the caller-supplied `query`. -/
def notify_rows (db : DB) (query : DB → List StoredJob)
    (new_job_ids : Option (List Nat)) : List StoredJob :=
  match new_job_ids with
  | some ids => if ids.isEmpty then query db else pending_by_ids db ids
  | none => query db

/-- utils.py lines 47-133, `notify_jobs(cur, notification_title, query,
new_job_ids=None)`.  `query` is the denotation of the SQL string the caller
passes.  The function fetches the rows, formats them, performs exactly one
POST (unconditionally — there is no emptiness guard before `requests.post`),
and returns the ids of the fetched rows.  When the transport fails the POST
was still attempted but the call raises instead of returning. -/
def notify_jobs (transportOk : Bool) (db : DB) (notification_title : String)
    (query : DB → List StoredJob) (new_job_ids : Option (List Nat)) :
    List Notification × Except Unit (List Nat) :=
  let rows := notify_rows db query new_job_ids
  let sent := [{ title := notification_title, rows := rows }]
  if transportOk then (sent, Except.ok (rows.map fun j => j.id))
  else (sent, Except.error ())

/-- The fallback query utils.py lines 221-225 passes from `insert_jobs`:
`SELECT ... FROM jobs WHERE application_status = 'pending'`. -/
def pending_query (db : DB) : List StoredJob :=
  db.jobs.filter fun j => j.application_status == "pending"

/-- utils.py lines 138-232, `insert_jobs(conn, cur, jobs, notification_title)`.
Builds the VALUES tuples, bulk-inserts them, commits, and — when at least one
row was newly inserted — calls `notify_jobs` restricted to the new ids.
Returns the committed store, the POST attempts made, and whether the call
raised (a notify failure propagates via the bare `raise`, after the commit). -/
def insert_jobs (transportOk : Bool) (db : DB) (jobs : List JobRecord)
    (notification_title : String) : DB × List Notification × Except Unit Unit :=
  let values := jobs.map job_values
  let bulk := execute_values db values
  -- conn.commit(): `bulk.1` is durably committed from here on
  let new_job_ids := bulk.2
  if new_job_ids.length > 0 then
    match notify_jobs transportOk bulk.1 notification_title pending_query
        (some new_job_ids) with
    | (sent, Except.ok _) => (bulk.1, sent, Except.ok ())
    | (sent, Except.error _) => (bulk.1, sent, Except.error ())
  else (bulk.1, [], Except.ok ())

/-- The `reminder_count` CTE of utils.py lines 266-270:
`SELECT job_id, COUNT(*) FROM reminders GROUP BY job_id` — one pair per
distinct job_id occurring in `reminders`. -/
def reminder_count_cte (reminders : List Nat) : List (Nat × Nat) :=
  reminders.dedup.map fun jid => (jid, reminders.count jid)

/-- `COALESCE(rc.count, 0)` after the `LEFT JOIN` on `j.id = rc.job_id`:
the count grouped for this job id, or 0 when the id has no reminder rows. -/
def coalesce_count (cte : List (Nat × Nat)) (jid : Nat) : Nat :=
  match cte.find? fun p => p.1 == jid with
  | some p => p.2
  | none => 0

/-- The selection query of utils.py lines 265-279: pending jobs whose
coalesced reminder count is below 15. -/
def reminder_query (db : DB) : List StoredJob :=
  db.jobs.filter fun j =>
    j.application_status == "pending" &&
      coalesce_count (reminder_count_cte db.reminders) j.id < 15

/-- utils.py lines 236-289, `send_reminders(conn, cur)`: notify the selected
jobs, then — only when the returned id list is truthy — insert one
`reminders` row per returned id and commit. -/
def send_reminders (transportOk : Bool) (db : DB) :
    DB × List Notification × Except Unit Unit :=
  match notify_jobs transportOk db "Reminder: Pending Job Applications"
      reminder_query none with
  | (sent, Except.ok reminded_ids) =>
    if reminded_ids.isEmpty then (db, sent, Except.ok ())
    else
      ({ db with reminders := db.reminders ++ reminded_ids },
       sent, Except.ok ())
  | (sent, Except.error _) => (db, sent, Except.error ())

/-! ### Entry points: the reliefweb module body and main.py -/

/-- The positional parameter list of `def insert_jobs(conn, cur, jobs,
notification_title)` (utils.py line 138).  None has a default value. -/
def insert_jobs_py_params : List String :=
  ["conn", "cur", "jobs", "notification_title"]

/-- Python call binding: the parameters left unbound by a call supplying
`n_positional` positional arguments and the keyword arguments `kw`. -/
def missing_args (params : List String) (n_positional : Nat)
    (kw : List String) : List String :=
  (params.drop n_positional).filter fun p => !(kw.contains p)

/-- Python call binding succeeds iff no positional argument overflows the
parameter list and no parameter without a default is left unbound; otherwise
the call raises `TypeError` before the callee body runs. -/
def call_binds (params : List String) (n_positional : Nat)
    (kw : List String) : Bool :=
  n_positional ≤ params.length && (missing_args params n_positional kw).isEmpty

/-- Outcome of running a program fragment against the external world: the
resulting store, the POST attempts performed, and whether an exception
escaped. -/
structure ProgramResult where
  db : DB
  sent : List Notification
  raised : Bool
deriving Repr, DecidableEq

/-- reliefweb.py lines 26-28, the module-level statements executed on
`import reliefweb`: build the url, extract the jobs, then call
`insert_jobs(jobs, notification_title='Jobs from Relief Web')` — one
positional argument and one keyword argument against the four required
parameters of utils.insert_jobs.  When that binding fails, `TypeError` is
raised before the body of `insert_jobs` runs, so no store or notify effect
happens.  (The guarded branch models the counterfactual bound call; it is
proved unreachable below.) -/
def run_reliefweb_module (feeds : String → List FeedEntry) (now : Nat)
    (transportOk : Bool) (db : DB) : ProgramResult :=
  let jobs := extract_jobs feeds now rss_feedlink
  if call_binds insert_jobs_py_params 1 ["notification_title"] then
    let r := insert_jobs transportOk db jobs "Jobs from Relief Web"
    { db := r.1, sent := r.2.1, raised := r.2.2 matches Except.error _ }
  else
    { db := db, sent := [], raised := true }

/-- main.py line 12: the feed url `main` passes to `extract_jobs`. -/
def main_feedlink : String :=
  "https://reliefweb.int/jobs?advanced-search=%28CC6866%29_%28C131%29"

/-- Outcome of one run of the body of `main` (main.py lines 5-20), also
tracking the db connection lifecycle. -/
structure MainResult where
  db : DB
  sent : List Notification
  conn_opened : Bool
  conn_closed : Bool
  raised : Bool
deriving Repr, DecidableEq

/-- main.py lines 5-20, the body of `main()`: open the connection and cursor,
extract, insert (which may notify and may raise), then `cur.close()` and
`conn.close()`.  The close calls are straight-line statements with no
`try`/`finally`, so an exception escaping `insert_jobs` propagates past them
and the connection is left open. -/
def main_fn (feeds : String → List FeedEntry) (now : Nat)
    (transportOk : Bool) (db : DB) : MainResult :=
  -- conn = utils.db_connection(); cur = conn.cursor()
  let jobs := extract_jobs feeds now main_feedlink
  match insert_jobs transportOk db jobs "Jobs from Relief Web" with
  | (db2, sent, Except.ok _) =>
    -- cur.close(); conn.close()
    { db := db2, sent := sent, conn_opened := true, conn_closed := true,
      raised := false }
  | (db2, sent, Except.error _) =>
    -- exception propagates: lines 19-20 never execute
    { db := db2, sent := sent, conn_opened := true, conn_closed := false,
      raised := true }

/-- main.py as a program: `import utils` (no observable effect), then
`import reliefweb` (runs the module body), and only if that import completes
does `main()` run (main.py line 24). -/
def main_program (feeds : String → List FeedEntry) (now : Nat)
    (transportOk : Bool) (db : DB) : ProgramResult :=
  let imported := run_reliefweb_module feeds now transportOk db
  if imported.raised then imported
  else
    let r := main_fn feeds now transportOk imported.db
    { db := r.db, sent := imported.sent ++ r.sent, raised := r.raised }

/-! ### Helper lemmas about the bulk insert -/

theorem hasLink_append (a b : List StoredJob) (l : Option String) :
    hasLink (a ++ b) l = (hasLink a l || hasLink b l) := by
  cases l with
  | none => simp [hasLink]
  | some s => simp [hasLink, List.any_append]

/-- Structure of one bulk insert: the store is extended (never rewritten) by a
list of fresh rows; the returned ids are exactly the ids of those rows, in
order; every fresh row has a link that did not conflict with the pre-state,
an id at least the pre-state serial, and the default `pending` status; the
serial does not decrease and the reminders table is untouched. -/
theorem execute_values_spec (values : List JobValues) (db : DB) :
    ∃ newRows : List StoredJob,
      (execute_values db values).1.jobs = db.jobs ++ newRows ∧
      newRows.map (fun j => j.id) = (execute_values db values).2 ∧
      (∀ j ∈ newRows, hasLink db.jobs j.link = false) ∧
      (∀ j ∈ newRows, db.next_id ≤ j.id ∧ j.application_status = "pending") ∧
      db.next_id ≤ (execute_values db values).1.next_id ∧
      (execute_values db values).1.reminders = db.reminders := by
  induction values generalizing db with
  | nil => exact ⟨[], by simp [execute_values]⟩
  | cons v rest ih =>
    cases hl : hasLink db.jobs v.link with
    | true =>
      have he : execute_values db (v :: rest) =
          ((execute_values db rest).1, (execute_values db rest).2) := by
        simp [execute_values, insertOne, hl]
      obtain ⟨nr, h1, h2, h3, h4, h5, h6⟩ := ih db
      exact ⟨nr, by rw [he]; exact h1, by rw [he]; exact h2, h3, h4,
        by rw [he]; exact h5, by rw [he]; exact h6⟩
    | false =>
      have he : execute_values db (v :: rest) =
          ((execute_values (afterInsert db v) rest).1,
            db.next_id :: (execute_values (afterInsert db v) rest).2) := by
        simp [execute_values, insertOne, hl]
      obtain ⟨nr, h1, h2, h3, h4, h5, h6⟩ := ih (afterInsert db v)
      refine ⟨freshRow db v :: nr, ?_, ?_, ?_, ?_, ?_, ?_⟩
      · rw [he]
        show (execute_values (afterInsert db v) rest).1.jobs = _
        rw [h1]
        simp [afterInsert]
      · rw [he]
        show _ = db.next_id :: (execute_values (afterInsert db v) rest).2
        rw [← h2]
        simp [freshRow]
      · intro j hj
        rcases List.mem_cons.mp hj with rfl | hj
        · simpa [freshRow] using hl
        · have h3j := h3 j hj
          simp only [afterInsert, hasLink_append, Bool.or_eq_false_iff] at h3j
          exact h3j.1
      · intro j hj
        rcases List.mem_cons.mp hj with rfl | hj
        · simp [freshRow]
        · have h4j := h4 j hj
          simp only [afterInsert] at h4j
          exact ⟨Nat.le_of_succ_le h4j.1, h4j.2⟩
      · rw [he]
        have hstep : db.next_id ≤ (afterInsert db v).next_id := by
          simp [afterInsert]
        exact hstep.trans h5
      · rw [he]
        show (execute_values (afterInsert db v) rest).1.reminders = _
        rw [h6]
        rfl

/-- A link visible before a bulk insert is still visible after it. -/
theorem hasLink_execute_values_mono (values : List JobValues) (db : DB)
    (l : Option String) (h : hasLink db.jobs l = true) :
    hasLink (execute_values db values).1.jobs l = true := by
  obtain ⟨nr, h1, -, -, -, -, -⟩ := execute_values_spec values db
  rw [h1, hasLink_append, h]
  rfl

/-- After a bulk insert, every non-NULL link of the inserted VALUES is present
in the store (it was either freshly inserted or already there). -/
theorem execute_values_links_present (values : List JobValues) (db : DB) :
    ∀ v ∈ values, v.link.isSome = true →
      hasLink (execute_values db values).1.jobs v.link = true := by
  induction values generalizing db with
  | nil => simp
  | cons v rest ih =>
    intro w hw hsome
    cases hl : hasLink db.jobs v.link with
    | true =>
      have he : execute_values db (v :: rest) =
          ((execute_values db rest).1, (execute_values db rest).2) := by
        simp [execute_values, insertOne, hl]
      rcases List.mem_cons.mp hw with rfl | hw
      · rw [he]
        exact hasLink_execute_values_mono rest db w.link hl
      · rw [he]
        exact ih db w hw hsome
    | false =>
      have he : execute_values db (v :: rest) =
          ((execute_values (afterInsert db v) rest).1,
            db.next_id :: (execute_values (afterInsert db v) rest).2) := by
        simp [execute_values, insertOne, hl]
      rcases List.mem_cons.mp hw with rfl | hw
      · have hbase : hasLink (afterInsert db w).jobs w.link = true := by
          obtain ⟨s, hs⟩ := Option.isSome_iff_exists.mp hsome
          refine hs ▸ ?_
          simp [afterInsert, hasLink, freshRow, hs]
        rw [he]
        exact hasLink_execute_values_mono rest (afterInsert db w) w.link hbase
      · rw [he]
        exact ih (afterInsert db v) w hw hsome

/-- When every VALUES tuple conflicts with the existing store, the bulk insert
changes nothing and returns no ids. -/
theorem execute_values_all_conflict (values : List JobValues) (db : DB)
    (h : ∀ v ∈ values, hasLink db.jobs v.link = true) :
    execute_values db values = (db, []) := by
  induction values with
  | nil => rfl
  | cons v rest ih =>
    have hl := h v (List.mem_cons_self v rest)
    have he : execute_values db (v :: rest) =
        ((execute_values db rest).1, (execute_values db rest).2) := by
      simp [execute_values, insertOne, hl]
    rw [he, ih fun w hw => h w (List.mem_cons_of_mem v hw)]

/-- Whatever happens at the notification step, the store an `insert_jobs` call
leaves behind is the committed post-insert store. -/
theorem insert_jobs_db (transportOk : Bool) (db : DB) (jobs : List JobRecord)
    (title : String) :
    (insert_jobs transportOk db jobs title).1 =
      (execute_values db (jobs.map job_values)).1 := by
  unfold insert_jobs
  cases transportOk <;>
    by_cases h : (execute_values db (jobs.map job_values)).2.length > 0 <;>
      simp [h, notify_jobs]

/-! ### Helper lemmas about the reminder-count CTE -/

theorem find_map_pair (l : List Nat) (cnt : Nat → Nat) (jid : Nat) :
    (l.map fun j => (j, cnt j)).find? (fun p => p.1 == jid) =
      if jid ∈ l then some (jid, cnt jid) else none := by
  induction l with
  | nil => simp
  | cons a l ih =>
    by_cases haj : a = jid
    · subst haj
      simp [List.find?]
    · have hbeq : (a == jid) = false := by
        simpa using haj
      have haj' : ¬jid = a := fun h => haj h.symm
      simp [List.find?, hbeq, ih, haj']

/-- The `LEFT JOIN` + `COALESCE(rc.count, 0)` of the reminder query computes,
for every job id, the number of reminder rows carrying that id — 0 when there
are none. -/
theorem coalesce_count_eq (rs : List Nat) (jid : Nat) :
    coalesce_count (reminder_count_cte rs) jid = rs.count jid := by
  unfold coalesce_count reminder_count_cte
  rw [find_map_pair]
  by_cases h : jid ∈ rs.dedup
  · simp [h]
  · have hnot : jid ∉ rs := fun hm => h (List.mem_dedup.mpr hm)
    simp [h, (List.count_eq_zero).mpr hnot]

/-! ### Concrete fixtures used by counterexamples and witnesses -/

/-- The empty store. -/
def exDB0 : DB := { jobs := [], reminders := [], next_id := 0 }

/-- A feed entry with a link. -/
def exEntry : FeedEntry :=
  { title := some "Eng", link := some "a", published := none,
    updated := none, author := none }

/-- A world in which the local feed has one entry and every other source,
including the hard-coded module url, has none. -/
def exFeeds : String → List FeedEntry :=
  fun src => if src == "local.xml" then [exEntry] else []

/-- A world in which every source yields the single entry `exEntry`. -/
def exFeedsAll : String → List FeedEntry := fun _ => [exEntry]

/-- A record with a link, as `extract_jobs` would build it from `exEntry`. -/
def exRecA : JobRecord :=
  { title := some "Eng", link := some "a", published := none,
    updated := none, author := none, fetched_at := 0,
    category := "Information and Communications Technology" }

/-- A record whose entry had no link: `entry.get` returned `None`. -/
def exRecNoLink : JobRecord :=
  { title := some "Ops", link := none, published := none,
    updated := none, author := none, fetched_at := 0,
    category := "Information and Communications Technology" }

/-- A stored row whose application status is no longer pending. -/
def exRowApplied : StoredJob :=
  { id := 1, title := some "Eng", link := some "a", published := none,
    author := none, category := some "c", fetched_at := some 0,
    application_status := "applied" }

/-- A store holding only the non-pending row. -/
def exDBApplied : DB := { jobs := [exRowApplied], reminders := [], next_id := 2 }

/-- The row created by inserting `exRecA` into the empty store. -/
def exRowA : StoredJob :=
  { id := 0, title := some "Eng", link := some "a", published := none,
    author := none, category := some "Information and Communications Technology",
    fetched_at := some 0, application_status := "pending" }

/-- The notification that insert run produces. -/
def exNotifA : Notification := { title := "T", rows := [exRowA] }

/-! ### The claims -/

/-- Claim C1: invoking the ingest entry point (running main.py, which imports
module reliefweb) always raises before any job is stored or notified: the
module-level call `insert_jobs(jobs, notification_title=...)` leaves the
required parameters `cur` and `jobs` unbound, so the import raises TypeError
for every world, every time, every transport, and every store, with the store
unchanged and no notification dispatched. -/
theorem main_entry_always_raises (feeds : String → List FeedEntry) (now : Nat)
    (transportOk : Bool) (db : DB) :
    main_program feeds now transportOk db =
      { db := db, sent := [], raised := true } := by
  have hbind : call_binds insert_jobs_py_params 1 ["notification_title"] = false := by
    decide
  simp [main_program, run_reliefweb_module, hbind]

/-- Claim C2 (code bug): `extract_jobs` ignores its `rss_feed_link` argument
and parses the module-global `rss_feedlink` instead, so for a world in which
the requested source has one entry and the module url has none, the call
returns no record at all instead of one record per entry of the requested
feed. -/
theorem extract_jobs_ignores_argument :
    extract_jobs exFeeds 0 "local.xml" = [] ∧
      (exFeeds "local.xml").length = 1 := by
  constructor
  · have hglobal : exFeeds rss_feedlink = [] := by decide
    simp [extract_jobs, hglobal]
  · decide

/-- Claim C3 counterexample: a notify call whose matching record set is empty
(the only stored row is not pending) still performs one outbound POST; the
claim that no dispatch happens on an empty match is false. -/
theorem notify_empty_batch_still_posts :
    notify_rows exDBApplied pending_query (some [1]) = [] ∧
      (notify_jobs true exDBApplied "T2" pending_query (some [1])).1.length = 1 := by
  decide

/-- Claim C3 amended: for every notify call whose matching record set is
empty, exactly one outbound dispatch carrying zero records (an empty body) is
still performed, and the empty ID list is returned. -/
theorem notify_empty_batch_amended (db : DB) (title : String)
    (query : DB → List StoredJob) (ids : Option (List Nat))
    (h : notify_rows db query ids = []) :
    notify_jobs true db title query ids =
      ([{ title := title, rows := [] }], Except.ok []) ∧
      Notification.body { title := title, rows := [] } = "" := by
  refine ⟨?_, rfl⟩
  simp [notify_jobs, h]

/-- Witness for the amended C3 at a concrete call. -/
theorem notify_empty_batch_amended_witness :
    notify_jobs true exDBApplied "T2" pending_query (some [1]) =
      ([{ title := "T2", rows := [] }], Except.ok []) ∧
      Notification.body { title := "T2", rows := [] } = "" :=
  notify_empty_batch_amended exDBApplied "T2" pending_query (some [1]) (by decide)

/-- Claim C4: one bulk upsert extends the store by fresh rows only (existing
rows are untouched, never updated), returns exactly the ids of the rows newly
created in this call, in order, and none of the created rows carries a link
that already existed in storage — so a record whose link duplicates existing
storage contributes no row and no id. -/
theorem upsert_returns_exactly_new_ids (db : DB) (values : List JobValues) :
    ∃ newRows : List StoredJob,
      (execute_values db values).1.jobs = db.jobs ++ newRows ∧
      newRows.map (fun j => j.id) = (execute_values db values).2 ∧
      ∀ j ∈ newRows, hasLink db.jobs j.link = false := by
  obtain ⟨nr, h1, h2, h3, -, -, -⟩ := execute_values_spec values db
  exact ⟨nr, h1, h2, h3⟩

/-- Claim C5: a stored job is selected by the reminder query iff its status is
pending and its reminder count — 0 for a job with no reminder rows — is
strictly below 15. -/
theorem reminder_selection_iff (db : DB) (j : StoredJob) :
    j ∈ reminder_query db ↔
      j ∈ db.jobs ∧ j.application_status = "pending" ∧
        db.reminders.count j.id < 15 := by
  unfold reminder_query
  rw [List.mem_filter]
  simp [coalesce_count_eq, and_assoc]

/-- Claim C6: a notification dispatched by the ingest flow carries exactly the
rows that this call newly inserted and that are pending at notification time:
a stored row is in the dispatched notification iff it is in the committed
store, was not in the store before the call, and has status pending. -/
theorem new_job_notification_exact_rows (db : DB) (jobs : List JobRecord)
    (title : String) (hwf : db.wf) :
    ∀ n ∈ (insert_jobs true db jobs title).2.1, ∀ j : StoredJob,
      (j ∈ n.rows ↔
        j ∈ (insert_jobs true db jobs title).1.jobs ∧ j ∉ db.jobs ∧
          j.application_status = "pending") := by
  intro n hn j
  obtain ⟨nr, h1, h2, h3, h4, -, -⟩ := execute_values_spec (jobs.map job_values) db
  cases hids : (execute_values db (jobs.map job_values)).2 with
  | nil =>
    exfalso
    simp [insert_jobs, hids] at hn
  | cons i is =>
    have hone : n = Notification.mk title
        (pending_by_ids (execute_values db (jobs.map job_values)).1 (i :: is)) := by
      simp [insert_jobs, notify_jobs, notify_rows, hids] at hn
      exact hn
    subst hone
    rw [insert_jobs_db]
    show j ∈ pending_by_ids (execute_values db (jobs.map job_values)).1
        (i :: is) ↔ _
    rw [pending_by_ids, List.mem_filter]
    constructor
    · rintro ⟨hjmem, hcond⟩
      simp only [Bool.and_eq_true, List.elem_iff, beq_iff_eq,
        decide_eq_true_eq] at hcond
      refine ⟨hjmem, ?_, hcond.2⟩
      intro hdb
      have hlt := hwf.1 j hdb
      have hidmem : j.id ∈ i :: is := hcond.1
      rw [← hids, ← h2] at hidmem
      obtain ⟨j', hj', hj'id⟩ := List.mem_map.mp hidmem
      have hle := (h4 j' hj').1
      omega
    · rintro ⟨hjmem, hnot, hpend⟩
      refine ⟨hjmem, ?_⟩
      have hjnr : j ∈ nr := by
        rw [h1] at hjmem
        rcases List.mem_append.mp hjmem with hcase | hcase
        · exact absurd hcase hnot
        · exact hcase
      have hid : j.id ∈ i :: is := by
        rw [← hids, ← h2]
        exact List.mem_map.mpr ⟨j, hjnr, rfl⟩
      simp [List.elem_iff, hid, hpend]

/-- Witness for C6: a concrete run over the empty store; the inserted row is
in the dispatched notification, and the characterization agrees. -/
theorem new_job_notification_exact_rows_witness :
    exRowA ∈ exNotifA.rows ↔
      exRowA ∈ (insert_jobs true exDB0 [exRecA] "T").1.jobs ∧
        exRowA ∉ exDB0.jobs ∧ exRowA.application_status = "pending" :=
  new_job_notification_exact_rows exDB0 [exRecA] "T" (by decide) exNotifA
    (by decide) exRowA

/-- Claim C7 counterexample: a payload whose single record has a NULL link
(its feed entry had no link) is re-inserted by a second identical run — the
unique index never fires on NULL — so the store after the second run differs
from the store after the first and a second new-job notification goes out. -/
theorem ingest_twice_null_link_counterexample :
    (insert_jobs true (insert_jobs true exDB0 [exRecNoLink] "T").1
        [exRecNoLink] "T").1 ≠ (insert_jobs true exDB0 [exRecNoLink] "T").1 ∧
    (insert_jobs true (insert_jobs true exDB0 [exRecNoLink] "T").1
        [exRecNoLink] "T").1.jobs.length = 2 ∧
    (insert_jobs true (insert_jobs true exDB0 [exRecNoLink] "T").1
        [exRecNoLink] "T").2.1.length = 1 := by
  decide

/-- Claim C7 amended: for a payload all of whose records carry a (non-NULL)
link, running ingest twice leaves the store of the second run equal to the
store of the first, and the second run dispatches no notification. -/
theorem ingest_idempotent_for_linked_payloads (db : DB)
    (records : List JobRecord) (title1 title2 : String)
    (hlinks : ∀ r ∈ records, r.link.isSome = true) :
    (insert_jobs true (insert_jobs true db records title1).1 records title2).1 =
      (insert_jobs true db records title1).1 ∧
    (insert_jobs true (insert_jobs true db records title1).1 records
      title2).2.1 = [] := by
  have key : ∀ dbX : DB,
      (∀ v ∈ records.map job_values, hasLink dbX.jobs v.link = true) →
      insert_jobs true dbX records title2 = (dbX, [], Except.ok ()) := by
    intro dbX hconfX
    have hskip := execute_values_all_conflict (records.map job_values) dbX hconfX
    simp [insert_jobs, hskip]
  have hconf : ∀ v ∈ records.map job_values,
      hasLink (insert_jobs true db records title1).1.jobs v.link = true := by
    intro v hv
    rw [insert_jobs_db]
    obtain ⟨r, hr, rfl⟩ := List.mem_map.mp hv
    have hsome : (job_values r).link.isSome = true := by
      simpa [job_values] using hlinks r hr
    exact execute_values_links_present (records.map job_values) db
      (job_values r) (List.mem_map.mpr ⟨r, hr, rfl⟩) hsome
  rw [key (insert_jobs true db records title1).1 hconf]
  exact ⟨rfl, rfl⟩

/-- Witness for the amended C7 at a concrete linked payload. -/
theorem ingest_idempotent_for_linked_payloads_witness :
    (insert_jobs true (insert_jobs true exDB0 [exRecA] "T").1 [exRecA] "T").1 =
      (insert_jobs true exDB0 [exRecA] "T").1 ∧
    (insert_jobs true (insert_jobs true exDB0 [exRecA] "T").1 [exRecA]
      "T").2.1 = [] :=
  ingest_idempotent_for_linked_payloads exDB0 [exRecA] "T" "T" (by decide)

/-- Claim C8: one reminder cycle appends exactly one `reminders` row per job
id returned by the notify step (in particular none when it returns none), so
each returned id's reminder count rises by exactly one and every other job id
keeps its count. -/
theorem reminder_insert_per_notified_id (db : DB) (hwf : db.wf) :
    (send_reminders true db).1.reminders =
      db.reminders ++ (reminder_query db).map (fun j => j.id) ∧
    ∀ jid : Nat,
      (send_reminders true db).1.reminders.count jid =
        db.reminders.count jid +
          if jid ∈ (reminder_query db).map (fun j => j.id) then 1 else 0 := by
  have h1 : (send_reminders true db).1.reminders =
      db.reminders ++ (reminder_query db).map (fun j => j.id) := by
    unfold send_reminders notify_jobs notify_rows
    cases he : ((reminder_query db).map (fun j => j.id)).isEmpty with
    | true =>
      have hemp : (reminder_query db).map (fun j => j.id) = [] := by
        simpa using he
      simp [hemp]
    | false => simp [he]
  refine ⟨h1, fun jid => ?_⟩
  rw [h1, List.count_append]
  have hnodup : ((reminder_query db).map (fun j => j.id)).Nodup := by
    have hsub : List.Sublist ((reminder_query db).map fun j => j.id)
        (db.jobs.map fun j => j.id) :=
      List.Sublist.map _ (List.filter_sublist db.jobs)
    exact List.Nodup.sublist hsub hwf.2
  by_cases hmem : jid ∈ (reminder_query db).map (fun j => j.id)
  · rw [if_pos hmem, List.count_eq_one_of_mem hnodup hmem]
  · rw [if_neg hmem, List.count_eq_zero_of_not_mem hmem]

/-- A store with one pending job and no reminder rows. -/
def exDBPend : DB := { jobs := [exRowA], reminders := [], next_id := 1 }

/-- Witness for C8: a concrete cycle over `exDBPend`, checked in full and at
job id 0. -/
theorem reminder_insert_per_notified_id_witness :
    (send_reminders true exDBPend).1.reminders =
      exDBPend.reminders ++ (reminder_query exDBPend).map (fun j => j.id) ∧
    (send_reminders true exDBPend).1.reminders.count 0 =
      exDBPend.reminders.count 0 +
        if 0 ∈ (reminder_query exDBPend).map (fun j => j.id) then 1 else 0 :=
  ⟨(reminder_insert_per_notified_id exDBPend (by decide)).1,
   (reminder_insert_per_notified_id exDBPend (by decide)).2 0⟩

/-- Claim C9 counterexample: a run of `main` in which the notification
transport fails opens the connection, raises, and terminates without closing
the connection — main.py has no `try`/`finally`, so the close calls on the
error path never run. -/
theorem main_leaks_connection_counterexample :
    (main_fn exFeedsAll 0 false exDB0).conn_opened = true ∧
    (main_fn exFeedsAll 0 false exDB0).raised = true ∧
    (main_fn exFeedsAll 0 false exDB0).conn_closed = false := by
  decide

/-- Claim C9 amended: the connection acquired at the start of a `main` run is
released exactly on the runs that raise no error; on a raising run it is left
open. -/
theorem main_closes_connection_iff_no_raise (feeds : String → List FeedEntry)
    (now : Nat) (transportOk : Bool) (db : DB) :
    (main_fn feeds now transportOk db).conn_opened = true ∧
    (main_fn feeds now transportOk db).conn_closed =
      !(main_fn feeds now transportOk db).raised := by
  rcases h : insert_jobs transportOk db (extract_jobs feeds now main_feedlink)
      "Jobs from Relief Web" with ⟨db2, sent, e⟩
  cases e <;> simp [main_fn, h]

/-- Claim C10: when the notification transport fails, the rows inserted by
that call are already committed and stay in the store — the call extends the
store by exactly the new rows, propagates the error, and makes exactly one
(unretried) dispatch attempt. -/
theorem commit_precedes_notify_failure (db : DB) (jobs : List JobRecord)
    (title : String)
    (hnew : (execute_values db (jobs.map job_values)).2 ≠ []) :
    ∃ newRows : List StoredJob,
      (insert_jobs false db jobs title).1.jobs = db.jobs ++ newRows ∧
      newRows.map (fun j => j.id) =
        (execute_values db (jobs.map job_values)).2 ∧
      (insert_jobs false db jobs title).2.2 = Except.error () ∧
      (insert_jobs false db jobs title).2.1.length = 1 := by
  obtain ⟨nr, h1, h2, -, -, -, -⟩ := execute_values_spec (jobs.map job_values) db
  have hlen : 0 < (execute_values db (jobs.map job_values)).2.length :=
    List.length_pos.mpr hnew
  refine ⟨nr, ?_, h2, ?_, ?_⟩
  · rw [insert_jobs_db]
    exact h1
  · simp [insert_jobs, notify_jobs, hlen]
  · simp [insert_jobs, notify_jobs, hlen]

/-- Witness for C10: a concrete failing-transport run over the empty store. -/
theorem commit_precedes_notify_failure_witness :
    ∃ newRows : List StoredJob,
      (insert_jobs false exDB0 [exRecA] "T").1.jobs = exDB0.jobs ++ newRows ∧
      newRows.map (fun j => j.id) =
        (execute_values exDB0 ([exRecA].map job_values)).2 ∧
      (insert_jobs false exDB0 [exRecA] "T").2.2 = Except.error () ∧
      (insert_jobs false exDB0 [exRecA] "T").2.1.length = 1 :=
  commit_precedes_notify_failure exDB0 [exRecA] "T" (by decide)

end JobsPipeline
